import Mathlib

/-!
Verification development for the vocabulary mastery and recommendation engine
of the talkai miniprogram backend.

The definitions below are a shallow embedding of the Python source:

* `backend/app/models/vocab.py`        — the `VocabItem` record model
* `backend/app/services/vocabulary.py` — `VocabularyService`
* `backend/app/services/vocab_manager.py` — `VocabManager`
* `backend/app/services/vocabulary_embedding.py` — `VocabularyEmbeddingService`
* `backend/app/utils/text_utils.py`    — the lexical normalizer

Python conventions modelled explicitly:

* `datetime.utcnow()` is modelled as an explicit `now : Nat` tick passed in.
* Python dicts are modelled as association lists in insertion order
  (a new key is appended at the end, an existing key is updated in place).
* Python exceptions are modelled with `Except PyErr`; a `try/except` block
  becomes a `match` on the `Except` value.
* A Python `@property` without a setter raises `AttributeError` when assigned;
  accessing a class attribute that does not exist raises `AttributeError`.
-/

/-- Python exception values that the modelled code can raise. -/
inductive PyErr where
  /-- assigning to a read-only `@property`, or reading a missing attribute -/
  | attributeError
  /-- invalid keyword argument passed to a SQLAlchemy model constructor -/
  | typeError
  /-- any other runtime error raised by an injected capability -/
  | valueError
  deriving Repr, DecidableEq

/-- Python slice `l[:n]` for an `int` index `n`: for `n ≥ 0` the first `n`
elements; for `n < 0` everything except the last `|n|` elements. -/
def pySlice (n : Int) (l : List α) : List α :=
  if 0 ≤ n then l.take n.toNat
  else l.take (l.length - n.natAbs)

/-- Lookup in a Python dict modelled as an association list. -/
def dictGet (k : String) (d : List (String × α)) : Option α :=
  (d.find? (fun p => p.1 = k)).map Prod.snd

/-- Assignment `d[k] = v` on a Python dict modelled as an association list:
update in place if the key exists, otherwise append (insertion order). -/
def dictSet (k : String) (v : α) (d : List (String × α)) : List (String × α) :=
  if (d.find? (fun p => p.1 = k)).isSome then
    d.map (fun p => if p.1 = k then (k, v) else p)
  else d ++ [(k, v)]

/-- `has_chinese` (`text_utils.py`): does the text contain a character in the
CJK Unified Ideographs range 0x4E00–0x9FFF? -/
def hasChinese (text : String) : Bool :=
  text.toList.any (fun c => 0x4E00 ≤ c.toNat ∧ c.toNat ≤ 0x9FFF)

example : hasChinese "hello" = false := by decide
example : pySlice (-1) [1, 2, 3] = [1, 2] := by decide
example : pySlice 0 [1, 2, 3] = ([] : List Nat) := by decide

/-!
## Data model (`backend/app/models/vocab.py`, class `VocabItem`)

Only the columns touched by the modelled services are carried; the constant
text columns (`definition`, `phonetic`, `translation`, `embedding_vector`,
`related_words`, `familiarity`, `id`) are never read or written by the
modelled code paths and are omitted.  `mastery_score` is a SQL `Float`
column; the modelled code only ever stores values that are exact in binary
floating point (`0.0`), so it is carried as a rational.
-/

structure VocabItem where
  user_id : String
  word : String
  source : Option String
  level : Option String
  /-- column `wrong_use_count` (SQL default 0) -/
  wrong_use_count : Int
  /-- column `right_use_count` (SQL default 0) -/
  right_use_count : Int
  /-- column `last_used` (nullable timestamp) -/
  last_used : Option Nat
  /-- column `added_date` -/
  added_date : Nat
  /-- column `mastery_score` (SQL `Float`, default 0.0) -/
  mastery_score : ℚ
  /-- column `is_active` (soft-delete flag) -/
  is_active : Bool
  /-- column `isMastered` -/
  isMastered : Bool
  deriving Repr, DecidableEq

/-- Read-only `@property encounter_count` of `VocabItem`:
`(wrong_use_count or 0) + (right_use_count or 0)`.  It has no setter, so an
assignment to it raises `AttributeError`. -/
def VocabItem.encounter_count (v : VocabItem) : Int :=
  v.wrong_use_count + v.right_use_count

/-- Read-only `@property correct_count` of `VocabItem`: `right_use_count or 0`.
No setter: assigning raises `AttributeError`. -/
def VocabItem.correct_count (v : VocabItem) : Int :=
  v.right_use_count

/-- Read-only `@property is_mastered` of `VocabItem` (compatibility alias for
the `isMastered` column).  No setter: assigning raises `AttributeError`. -/
def VocabItem.is_mastered (v : VocabItem) : Bool :=
  v.isMastered

/-- One staged delta held in `VocabularyService._memory_cache[user][word]`
(a Python dict literal built in `_update_learning_vocab_async`). -/
structure CacheEntry where
  right_use_count : Int
  wrong_use_count : Int
  last_updated : Nat
  source : String
  deriving Repr, DecidableEq

/-- The mutable state of the `VocabularyService` singleton together with the
durable store (the `vocab_items` table, modelled as a list of rows in
insertion order). -/
structure ServiceState where
  /-- `self._memory_cache : {user_id: {word: update_info}}` -/
  memory_cache : List (String × List (String × CacheEntry))
  /-- `self._has_unsaved_changes : {user_id: bool}` -/
  has_unsaved_changes : List (String × Bool)
  /-- the durable vocabulary record store (`vocab_items` table) -/
  db : List VocabItem
  deriving Repr, DecidableEq

/-- The query
`db.query(VocabItem).filter(user_id == uid, word == w, is_active == True).first()`
used by `_update_learning_vocab_async`: first matching row in table order. -/
def findActiveVocab (uid w : String) (db : List VocabItem) : Option VocabItem :=
  db.find? (fun v => v.user_id == uid && v.word == w && v.is_active)

/-- Mutating the row returned by `.first()` and committing: the first matching
row is replaced, all other rows are untouched. -/
def updateFirstVocab (p : VocabItem → Bool) (f : VocabItem → VocabItem) :
    List VocabItem → List VocabItem
  | [] => []
  | v :: rest => if p v then f v :: rest else v :: updateFirstVocab p f rest

/-- The three usage kinds that increment `wrong_use_count`
(`source in ["user_input", "lookup", "wrong_use"]`). -/
def wrongUseSources : List String := ["user_input", "lookup", "wrong_use"]

/-!
## Usage Update Engine
(`backend/app/services/vocabulary.py`, `_update_learning_vocab_async`,
lines 457–577)

This is the usage-update path actually wired to the API (`dict.py` calls it
for lookups, `update_vocabulary_from_correction` calls it for
`wrong_use`/`right_use`).  The word normalizer `original` from
`text_utils.py` is an injected parameter `orig` here; it is modelled
separately below for the normalizer claims.

Nothing in the function body can raise for a pure in-memory store, so the
`except` branch (log, rollback, `return False`) is unreachable and the
function is total.
-/

def updateLearningVocabAsync (orig : String → String) (user_id wordRaw source : String)
    (now : Nat) (st : ServiceState) : Bool × ServiceState :=
  -- `if has_chinese(word): return True`
  if hasChinese wordRaw then (true, st)
  else
    -- `word = original(word)`
    let word := orig wordRaw
    -- memory-cache section: ensure `_memory_cache[user_id][word]` exists
    -- (initialised to zero counters), then increment it by `source`, then
    -- stamp `last_updated`.
    let userMap := (dictGet user_id st.memory_cache).getD []
    let entry := (dictGet word userMap).getD
      { right_use_count := 0, wrong_use_count := 0, last_updated := now, source := source }
    let entry :=
      if wrongUseSources.contains source then
        { entry with wrong_use_count := entry.wrong_use_count + 1 }
      else if source == "right_use" then
        { entry with right_use_count := entry.right_use_count + 1 }
      else entry
    let entry := { entry with last_updated := now }
    let cache := dictSet user_id (dictSet word entry userMap) st.memory_cache
    -- `self._has_unsaved_changes[user_id] = True`
    let flags := dictSet user_id true st.has_unsaved_changes
    -- synchronous durable write: look up the active record
    match findActiveVocab user_id word st.db with
    | some _ =>
        -- update the existing row in place, recompute `isMastered`, commit
        let db' := updateFirstVocab
          (fun v => v.user_id == user_id && v.word == word && v.is_active)
          (fun v =>
            let v := { v with last_used := some now }
            let v :=
              if wrongUseSources.contains source then
                { v with wrong_use_count := v.wrong_use_count + 1 }
              else if source == "right_use" then
                { v with right_use_count := v.right_use_count + 1 }
              else v
            { v with isMastered := decide (v.right_use_count - v.wrong_use_count ≥ 3) })
          st.db
        (true, { memory_cache := cache, has_unsaved_changes := flags, db := db' })
    | none =>
        if source ≠ "right_use" then
          -- create a new row; `mastery_score` takes its column default 0.0
          let newV : VocabItem :=
            { user_id := user_id, word := word, source := some source,
              level := some "none", added_date := now, last_used := some now,
              right_use_count := 0,
              wrong_use_count := if wrongUseSources.contains source then 1 else 0,
              mastery_score := 0, isMastered := false, is_active := true }
          (true, { memory_cache := cache, has_unsaved_changes := flags, db := st.db ++ [newV] })
        else
          -- `right_use` on an untracked word: log and fall through to
          -- `return True` with no durable change
          (true, { memory_cache := cache, has_unsaved_changes := flags, db := st.db })

/-!
## `VocabularyService.update_vocabulary_usage` (vocabulary.py lines 267–364)

This older usage-update path (wired to the `/learning-vocab/update-usage`
endpoint) manipulates the record through the *compatibility properties*
`correct_count`, `encounter_count` and `is_mastered` of `VocabItem`.  Those
are read-only Python `@property` attributes (models/vocab.py lines 35–43 and
59–62): assigning to any of them raises `AttributeError`.  Every control path
of the function performs such an assignment before `db.commit()`, so the
`except` clause always runs: it logs, calls `db.rollback()` (discarding the
pending object and mutations) and returns `False`.
-/

def updateVocabularyUsageCore (orig : String → String) (user_id wordRaw usage_type : String)
    (now : Nat) (db : List VocabItem) : Except PyErr (Bool × List VocabItem) := do
  -- `if has_chinese(word): return False`
  if hasChinese wordRaw then return (false, db)
  -- `normalized_word = original(word)`
  let word := orig wordRaw
  -- `.filter(user_id == ..., word == ...).first()` — note: no `is_active` filter
  let vocab_item : VocabItem :=
    match db.find? (fun v => v.user_id == user_id && v.word == word) with
    | some v => v
    | none =>
        -- `VocabItem(...)` pending object; all keyword arguments here are real
        -- columns, so construction succeeds and `db.add` stages it
        { user_id := user_id, word := word, source := none, level := none,
          wrong_use_count := 0, right_use_count := 0, mastery_score := 0,
          added_date := now, last_used := some now, is_active := true,
          isMastered := false }
  if usage_type == "right_use" then
    -- `vocab_item.correct_count = (vocab_item.correct_count or 0) + 1`:
    -- `correct_count` is a read-only @property, assignment raises
    throw PyErr.attributeError
  else if wrongUseSources.contains usage_type then
    -- `vocab_item.encounter_count = (vocab_item.encounter_count or 0) + 1`:
    -- `encounter_count` is a read-only @property, assignment raises
    throw PyErr.attributeError
  else
    -- any other usage kind skips both counter assignments; `last_reviewed` and
    -- `example_sentence` become plain instance attributes, `mastery_score` is
    -- a real column, but `vocab_item.is_mastered = is_mastered` (line 343)
    -- assigns the read-only @property `is_mastered` and raises before commit
    let _ := vocab_item
    throw PyErr.attributeError

/-- `update_vocabulary_usage`: the `except` clause logs the error, rolls the
session back and returns `False`; the durable store is left unchanged. -/
def updateVocabularyUsage (orig : String → String) (user_id wordRaw usage_type : String)
    (now : Nat) (db : List VocabItem) : Bool × List VocabItem :=
  match updateVocabularyUsageCore orig user_id wordRaw usage_type now db with
  | .ok r => r
  | .error _ => (false, db)

/-!
## Deferred write-back flush (`_perform_batch_save`, vocabulary.py lines 87–111)

The body only clears the in-memory staged cache.  The block that would apply
the staged deltas to the durable store is a stub — its own comments say the
real application would need a database session here and that for now it "only
marks as saved".  For each user with a non-empty staged map, the map is reset
to `{}` and `has_unsaved_changes[user] = False`; the durable store is not
touched at all.
-/

def performBatchSave (st : ServiceState) : ServiceState :=
  -- `if not self._memory_cache: return`
  if st.memory_cache.isEmpty then st
  else
    { memory_cache :=
        st.memory_cache.map (fun p => if p.2.isEmpty then p else (p.1, [])),
      has_unsaved_changes :=
        st.memory_cache.foldl
          (fun fl p => if p.2.isEmpty then fl else dictSet p.1 false fl)
          st.has_unsaved_changes,
      db := st.db }

/-!
## `VocabManager` (`backend/app/services/vocab_manager.py`)

`_update_vocab_background` (lines 124–185) drives its counters through the
compatibility properties `encounter_count`, `correct_count`, `is_mastered`,
which are read-only on `VocabItem`; and `_create_new_word` (lines 187–219)
passes `encounter_count=...`, `correct_count=...`, `is_mastered=...`,
`created_at=...`, `last_reviewed=...` to the `VocabItem` constructor —
`encounter_count` hits the read-only property (AttributeError) and
`created_at`/`last_reviewed` are not attributes of the model at all
(TypeError).  Consequently neither path ever commits a change.
-/

/-- The mutable state of the `VocabManager` singleton: its *global* (not
per-user) unsaved flag, plus the durable store. -/
structure ManagerState where
  has_unsaved_changes : Bool
  db : List VocabItem
  deriving Repr, DecidableEq

/-- `_create_new_word`: the `VocabItem(...)` constructor raises on the
`encounter_count=...` keyword (read-only @property) before any row is staged;
the function's own `except` catches it and returns `False`. -/
def createNewWordCore : Except PyErr VocabItem :=
  throw PyErr.attributeError

def createNewWord (word source uid : String) (now : Nat) (db : List VocabItem) :
    Bool × List VocabItem :=
  let _ := (word, source, uid, now)
  match createNewWordCore with
  | .ok v => (true, db ++ [v])
  | .error _ => (false, db)

/-- Body of `_update_vocab_background` inside its `try`. -/
def updateVocabBackgroundCore (word source user_id : String) (now : Nat)
    (mst : ManagerState) : Except PyErr (Bool × ManagerState) := do
  -- `word = self._original(word)` : `word.lower().strip()`
  let word := word.toLower.trim
  -- `.filter(user_id == ..., word == word.lower(), is_active == True).first()`
  match mst.db.find? (fun v =>
      v.user_id == user_id && v.word == word.toLower && v.is_active) with
  | some _ =>
      -- `last_reviewed` (plain instance attribute) and `last_used` (column)
      -- are set first, but then every source kind assigns a read-only
      -- @property before `db.commit()`: `encounter_count += 1` for the wrong
      -- kinds and for `right_use`, and `is_mastered = mastery_score >= 3`
      -- (line 164) otherwise.  The uncommitted session is discarded.
      throw PyErr.attributeError
  | none =>
      if source ≠ "right_use" then
        let (success, db') := createNewWord word source user_id now mst.db
        if success then
          return (success, { has_unsaved_changes := true, db := db' })
        else
          return (success, { mst with db := db' })
      else
        -- `"right_use"` never creates a record: fall through to `return True`
        return (true, mst)

/-- `_update_vocab_background`: the outer `except` logs and returns `False`
with the store unchanged. -/
def updateVocabBackground (word source user_id : String) (now : Nat)
    (mst : ManagerState) : Bool × ManagerState :=
  match updateVocabBackgroundCore word source user_id now mst with
  | .ok r => r
  | .error _ => (false, mst)

/-!
## Semantic Similarity Recommender
(`backend/app/services/vocabulary_embedding.py` and
`VocabularyService.suggest_vocabulary_semantic`)

The sentence-transformer model is an injected capability whose `encode` call
may raise; it is modelled as a function into `Except`.  numpy's
floating-point cosine similarity
`np.dot(e, h) / (np.linalg.norm(e) * np.linalg.norm(h))` is abstracted as an
injected scorer `cosine` assigning an exact rational score to a pair of
embedding vectors; nothing proved below depends on the scores' values, only
on the sorting and slicing applied to them.

Python's `list.sort(key=lambda x: x[1], reverse=True)` is a *stable*
descending sort by the second component.  A stable sort is extensionally
determined by the comparator, so it is modelled by insertion sort with the
non-strict descending comparator, which is likewise stable.
-/

structure EmbedModel where
  encode : String → Except PyErr (List ℚ)

/-- Keys of the Python dict `{word: idx for idx, word in enumerate(words)}` in
insertion order: the distinct words, first occurrence first. -/
def dedupKeepFirst (ws : List String) : List String :=
  ws.foldl (fun acc w => if acc.contains w then acc else acc ++ [w]) []

/-- Batch-encoding a list of words, propagating the first failure
(`self.embedding_model.encode(words)` on the word list). -/
def exceptMapM (f : String → Except PyErr (List ℚ)) :
    List String → Except PyErr (List (List ℚ))
  | [] => Except.ok []
  | x :: rest =>
      match f x, exceptMapM f rest with
      | Except.ok v, Except.ok vs => Except.ok (v :: vs)
      | Except.error e, _ => Except.error e
      | Except.ok _, Except.error e => Except.error e

/-- `compute_vocab_embeddings` (vocabulary_embedding.py lines 27–71): fetch
the user's active unmastered rows (this query uses the real columns
`is_active` and `isMastered`), batch-encode their words, and return the
embeddings with the word list; `None, None` when the model is missing, when
the user has no unmastered vocabulary, or when encoding raises (caught by
the function's own `except`). -/
def computeVocabEmbeddings (m : Option EmbedModel) (user_id : String)
    (db : List VocabItem) : Option (List (List ℚ) × List String) :=
  match m with
  | none => none
  | some em =>
    let words := (db.filter (fun v =>
        v.user_id == user_id && v.is_active && !v.isMastered)).map (fun v => v.word)
    if words.isEmpty then none
    else
      match exceptMapM em.encode words with
      | .ok embs => some (embs, words)
      | .error _ => none

/-- Body of `find_similar_vocabulary` (lines 73–134) inside its `try`. -/
def findSimilarVocabularyCore (m : Option EmbedModel) (cosine : List ℚ → List ℚ → ℚ)
    (user_input ai_response user_id : String) (db : List VocabItem) (top_n : Int) :
    Except PyErr (List String) := do
  match m with
  | none =>
      -- model unavailable: log and return []
      return []
  | some em =>
      -- `last_turn_text = " ".join([user_input, ai_response])`
      let last_turn_text := user_input ++ " " ++ ai_response
      -- `history_embedding = self.embedding_model.encode(last_turn_text)`
      let history ← em.encode last_turn_text
      match computeVocabEmbeddings m user_id db with
      | none => return []
      | some (word_embeddings, wordsAll) =>
          -- `word_to_index = {word: idx for idx, word in enumerate(words)}`
          -- and later `words = list(word_to_index.keys())`
          let words := dedupKeepFirst wordsAll
          -- `similarities = np.dot(word_embeddings, history) / (norms)`
          let similarities := word_embeddings.map (fun e => cosine e history)
          -- `word_sim_pairs = [(words[i], float(similarities[i])) for i in range(len(words))]`
          let word_sim_pairs := (List.range words.length).map
            (fun i => (words.getD i "", similarities.getD i 0))
          -- `word_sim_pairs.sort(key=lambda x: x[1], reverse=True)` (stable)
          let sortedPairs :=
            List.insertionSort (fun a b : String × ℚ => b.2 ≤ a.2) word_sim_pairs
          -- `top_pairs = word_sim_pairs[:top_n]; [word for word, sim in top_pairs]`
          return (pySlice top_n sortedPairs).map Prod.fst

/-- `find_similar_vocabulary`: the `except` clause logs and returns `[]`. -/
def findSimilarVocabulary (m : Option EmbedModel) (cosine : List ℚ → List ℚ → ℚ)
    (user_input ai_response user_id : String) (db : List VocabItem) (top_n : Int) :
    List String :=
  match findSimilarVocabularyCore m cosine user_input ai_response user_id db top_n with
  | .ok l => l
  | .error _ => []

/-!
## `suggest_vocabulary_semantic` and its recency fallback
(`backend/app/services/vocabulary.py` lines 136–265)

Two of the queries in this file compare the *plain Python property object*
`VocabItem.is_mastered` (not a mapped column) against `False`, which
evaluates to the boolean `False`, so those queries are filtered by an
always-false condition; and `_fallback_vocabulary_suggestions` orders by
`VocabItem.last_reviewed`, an attribute that does not exist on the model
class (the column is named `last_used`), which raises `AttributeError`
while the query is being built.
-/

/-- `_get_unmastered_vocabulary` (lines 219–241):
`filter(VocabItem.user_id == user_id, VocabItem.is_mastered == False)` —
the second term is the plain boolean `False` (property object compared with
`False`), so no row ever matches; errors are caught and give `[]` too. -/
def getUnmasteredVocabulary (user_id : String) (db : List VocabItem) : List VocabItem :=
  (db.filter (fun v => v.user_id == user_id)).filter (fun _ => false)

/-- Body of `_fallback_vocabulary_suggestions` (lines 243–265) inside its
`try`: the query chain raises while being built. -/
def fallbackVocabularySuggestionsCore (user_id : String) (db : List VocabItem)
    (limit : Int) : Except PyErr (List String) := do
  -- `.filter(VocabItem.user_id == user_id)`
  -- `.filter(VocabItem.is_mastered == False)` — property object vs `False`:
  -- the filter term is the plain boolean `False`
  let q := (db.filter (fun v => v.user_id == user_id)).filter (fun _ => false)
  let _ := (q, limit)
  -- `.order_by(VocabItem.last_reviewed.asc())`: the model class has no
  -- attribute `last_reviewed` — AttributeError
  throw PyErr.attributeError

/-- `_fallback_vocabulary_suggestions`: the `except` clause logs and
returns `[]`. -/
def fallbackVocabularySuggestions (user_id : String) (db : List VocabItem)
    (limit : Int) : List String :=
  match fallbackVocabularySuggestionsCore user_id db limit with
  | .ok l => l
  | .error _ => []

/-- Body of `suggest_vocabulary_semantic` (lines 158–213) inside its `try`.
The per-process word-embedding cache `self.embedding_cache` is threaded
explicitly and returned alongside the suggestions.  The per-word encoding
loop catches failures per word and skips that word (`continue`). -/
def suggestVocabularySemanticCore (m : Option EmbedModel)
    (cosine : List ℚ → List ℚ → ℚ) (ecache : List (String × List ℚ))
    (user_id user_input ai_response : String) (db : List VocabItem) (limit : Int) :
    Except PyErr (List String × List (String × List ℚ)) := do
  match m with
  | none =>
      -- `if not embedding_model: return await self._fallback_vocabulary_suggestions(...)`
      return (fallbackVocabularySuggestions user_id db limit, ecache)
  | some em =>
      -- `last_turn_text = " ".join([user_input, ai_response])`
      let last_turn_text := user_input ++ " " ++ ai_response
      let unmastered := getUnmasteredVocabulary user_id db
      -- `if not unmastered_vocab: return []`
      if unmastered.isEmpty then return ([], ecache)
      -- `history_embedding = embedding_model.encode(last_turn_text)`
      let history ← em.encode last_turn_text
      -- per-word cache fill / embedding collection loop
      let folded := unmastered.foldl
        (fun (acc : List (String × List ℚ) × List (List ℚ) × List String) v =>
          let (ec, embs, ws) := acc
          match dictGet v.word ec with
          | some e => (ec, embs ++ [e], ws ++ [v.word])
          | none =>
              match em.encode v.word with
              | .ok e => (dictSet v.word e ec, embs ++ [e], ws ++ [v.word])
              | .error _ => (ec, embs, ws))
        (ecache, [], [])
      let (ecache', word_embeddings, words) := folded
      -- `if not word_embeddings: return []`
      if word_embeddings.isEmpty then return ([], ecache')
      let similarities := word_embeddings.map (fun e => cosine e history)
      -- here `words` and `similarities` have equal length by construction
      let word_sim_pairs := words.zip similarities
      let sortedPairs :=
        List.insertionSort (fun a b : String × ℚ => b.2 ≤ a.2) word_sim_pairs
      -- `top_suggestions = [word for word, sim in word_sim_pairs[:limit]]`
      return ((pySlice limit sortedPairs).map Prod.fst, ecache')

/-- `suggest_vocabulary_semantic`: the `except` clause logs and returns the
recency fallback.  The only statement that can raise is the context
`encode`, which runs before the cache loop, so the cache is unchanged on the
error path. -/
def suggestVocabularySemantic (m : Option EmbedModel)
    (cosine : List ℚ → List ℚ → ℚ) (ecache : List (String × List ℚ))
    (user_id user_input ai_response : String) (db : List VocabItem) (limit : Int) :
    List String × List (String × List ℚ) :=
  match suggestVocabularySemanticCore m cosine ecache user_id user_input ai_response db limit with
  | .ok r => r
  | .error _ => (fallbackVocabularySuggestions user_id db limit, ecache)

/-!
## Lexical Normalizer (`backend/app/utils/text_utils.py`)

Python strings are modelled as their character sequences (`List Char`), and
`str.lower()` as character-wise `Char.toLower` (the tracked vocabulary is
ASCII English; `lower` only rewrites letters).  spaCy — the injected
tokenizer / lemmatizer / part-of-speech tagger — is a black box: it is
modelled as an optional `NlpModel` (the source falls back gracefully to
`word.lower().strip()` when the model is absent, `text_utils.py` lines
11–16 and 154–156).
-/

/-- A Python string as a character sequence. -/
abbrev Str := List Char

/-- `str.lower()`, character-wise. -/
def strLower (s : Str) : Str := s.map Char.toLower

/-- `str.strip()`: drop whitespace from both ends. -/
def strStrip (s : Str) : Str :=
  ((s.dropWhile Char.isWhitespace).reverse.dropWhile Char.isWhitespace).reverse

/-- Worker for `str.split()`: accumulate the current chunk (reversed). -/
def pySplitAux : Str → Str → List Str
  | [], cur => if cur.isEmpty then [] else [cur.reverse]
  | c :: rest, cur =>
      if c.isWhitespace then
        if cur.isEmpty then pySplitAux rest []
        else cur.reverse :: pySplitAux rest []
      else pySplitAux rest (c :: cur)

/-- Python `str.split()` with no argument: split on whitespace runs,
dropping empty chunks. -/
def pySplit (s : Str) : List Str := pySplitAux s []

example : pySplit "  look  forward to ".toList =
    ["look".toList, "forward".toList, "to".toList] := by decide
example : pySplit "word".toList = ["word".toList] := by decide
example : pySplit "   ".toList = [] := by decide

/-- One spaCy token, with the attributes the source reads. -/
structure NlpToken where
  text : Str
  lemma_ : Str
  is_alpha : Bool
  is_space : Bool
  is_punct : Bool
  pos_ : String
  dep_ : String
  deriving Repr, DecidableEq

/-- The injected spaCy pipeline: `nlp(text)` yields a token list. -/
structure NlpModel where
  tokenize : Str → List NlpToken

/-- The interrogative tokens treated as sentence features. -/
def questionWords : List Str :=
  ["what".toList, "where".toList, "when".toList, "why".toList,
   "how".toList, "who".toList, "which".toList]

/-- The fixed collocation part-of-speech patterns. -/
def collocationPatterns : List (List String) :=
  [["VERB", "ADP"], ["VERB", "ADV", "ADP"], ["ADJ", "ADP"],
   ["NOUN", "ADP"], ["VERB", "PART"], ["ADV", "ADJ"]]

/-- The pattern scan of `is_collocation`: the source checks the pattern as a
prefix and then at every start index, i.e. as a contiguous subsequence. -/
def patternMatches (pat tags : List String) : Bool :=
  decide (pat.length ≤ tags.length) &&
    (List.range (tags.length - pat.length + 1)).any
      (fun i => (tags.drop i).take pat.length == pat)

/-- `is_collocation` (text_utils.py lines 49–123). -/
def isCollocation (nlpM : Option NlpModel) (phrase : Str) : Bool :=
  match nlpM with
  | none =>
      -- fallback without spaCy: word count in [2,5] and no question word
      let words := pySplit phrase
      if words.length < 2 || words.length > 5 then false
      else !(words.any (fun w => questionWords.contains (strLower w)))
  | some nlp =>
      let words := pySplit phrase
      if words.length < 2 || words.length > 5 then false
      else
        let tokens := (nlp.tokenize phrase).filter (fun t => !t.is_punct)
        if tokens.any (fun t => questionWords.contains (strLower t.text)) then false
        else
          let has_subject := tokens.any (fun t =>
            t.dep_ == "nsubj" || t.dep_ == "nsubjpass" || t.pos_ == "PRON")
          let has_verb := tokens.any (fun t =>
            t.pos_ == "VERB" && (t.dep_ == "ROOT" || t.dep_ == "cop"))
          if has_subject && has_verb then false
          else
            let pos_tags := tokens.map (fun t => t.pos_)
            collocationPatterns.any (fun pat => patternMatches pat pos_tags)

/-- The collocation branch of `original`: lemmatize alphabetic tokens
(lower-cased), keep other non-space tokens verbatim (lower-cased), skip
space tokens. -/
def processCollocationTokens (toks : List NlpToken) : List Str :=
  toks.foldr
    (fun t acc =>
      if t.is_alpha then strLower t.lemma_ :: acc
      else if t.is_space then acc
      else strLower t.text :: acc)
    []

/-- `" ".join(...)`. -/
def joinSpace (ps : List Str) : Str := (ps.intersperse [' ']).flatten

/-- The whole collocation branch: tokenize, process, re-join. -/
def collProcess (nlp : NlpModel) (phrase : Str) : Str :=
  joinSpace (processCollocationTokens (nlp.tokenize phrase))

/-- `original` (text_utils.py lines 125–188): the lexical normalizer. -/
def original (nlpM : Option NlpModel) (word : Str) : Str :=
  match nlpM with
  | none =>
      -- fallback without spaCy: `word.lower().strip()`
      strStrip (strLower word)
  | some nlp =>
      -- hyphenated single token: keep as-is, lower-cased
      if word.contains '-' && (pySplit word).length == 1 then
        strLower word
      -- single word: first alphabetic token's lemma, lower-cased
      else if (pySplit word).length == 1 then
        match (nlp.tokenize word).find? (fun t => t.is_alpha) with
        | some t => strLower t.lemma_
        | none => strLower word
      -- multi-word: lemmatize collocations, keep sentences unchanged
      else if isCollocation (some nlp) word then
        collProcess nlp word
      else
        word

/-!
## Sanity checks: the scenarios of spec §8 on the live update path
-/

/-- The initial state: empty cache, no flags, empty store. -/
def emptyState : ServiceState :=
  { memory_cache := [], has_unsaved_changes := [], db := [] }

/-- A trivial injected normalizer for concrete evaluations. -/
def idNorm : String → String := fun s => s

example :  -- Scenario A: first `lookup` of "cat" creates wrong=1, right=0
    (updateLearningVocabAsync idNorm "u" "cat" "lookup" 7 emptyState).2.db =
      [{ user_id := "u", word := "cat", source := some "lookup",
         level := some "none", wrong_use_count := 1, right_use_count := 0,
         last_used := some 7, added_date := 7, mastery_score := 0,
         is_active := true, isMastered := false }] := by decide

example :  -- Scenario C: right=2, wrong=0 plus one `right_use` masters the word
    ((updateLearningVocabAsync idNorm "u" "cat" "right_use" 8
      { emptyState with db :=
        [{ user_id := "u", word := "cat", source := some "lookup",
           level := some "none", wrong_use_count := 0, right_use_count := 2,
           last_used := some 7, added_date := 7, mastery_score := 0,
           is_active := true, isMastered := false }] }).2.db.map
      (fun v => (v.right_use_count, v.wrong_use_count, v.isMastered))) =
    [(3, 0, true)] := by decide

/-!
## Helper lemmas
-/

theorem mem_updateFirstVocab {p : VocabItem → Bool} {f : VocabItem → VocabItem}
    {l : List VocabItem} {x : VocabItem} (hx : x ∈ updateFirstVocab p f l) :
    x ∈ l ∨ ∃ v ∈ l, x = f v := by
  induction l with
  | nil => simp [updateFirstVocab] at hx
  | cons v rest ih =>
      simp only [updateFirstVocab] at hx
      by_cases hp : p v
      · rw [if_pos hp] at hx
        rcases List.mem_cons.mp hx with h | h
        · exact Or.inr ⟨v, List.mem_cons_self v rest, h⟩
        · exact Or.inl (List.mem_cons_of_mem v h)
      · rw [if_neg hp] at hx
        rcases List.mem_cons.mp hx with h | h
        · exact Or.inl (h ▸ List.mem_cons_self v rest)
        · rcases ih h with h' | ⟨w, hw, hxw⟩
          · exact Or.inl (List.mem_cons_of_mem v h')
          · exact Or.inr ⟨w, List.mem_cons_of_mem v hw, hxw⟩

/-- Neither path of `VocabManager._update_vocab_background` ever commits a
change: every existing-record mutation and every record creation raises
`AttributeError`/`TypeError` on the compatibility attributes first. -/
theorem updateVocabBackground_db (word source uid : String) (now : Nat)
    (mst : ManagerState) :
    (updateVocabBackground word source uid now mst).2.db = mst.db := by
  unfold updateVocabBackground updateVocabBackgroundCore createNewWord createNewWordCore
  cases hf : mst.db.find? (fun v =>
      v.user_id == uid && v.word == (word.toLower.trim).toLower && v.is_active) with
  | none =>
      by_cases hs : source = "right_use" <;>
        simp [hf, hs, pure, Except.pure, throw, throwThe, MonadExceptOf.throw]
  | some v =>
      simp [hf, throw, throwThe, MonadExceptOf.throw]

/-- The in-place mutation that `_update_learning_vocab_async` applies to an
existing active row: stamp `last_used`, increment the counter selected by
`source`, recompute `isMastered`. -/
def applyUsageToRecord (src : String) (now : Nat) (v : VocabItem) : VocabItem :=
  let v1 := { v with last_used := some now }
  let v2 := if wrongUseSources.contains src then
      { v1 with wrong_use_count := v1.wrong_use_count + 1 }
    else if src == "right_use" then
      { v1 with right_use_count := v1.right_use_count + 1 }
    else v1
  { v2 with isMastered := decide (v2.right_use_count - v2.wrong_use_count ≥ 3) }

/-- Closed form of the durable-store component of
`_update_learning_vocab_async`. -/
theorem updateLearningVocabAsync_db (orig : String → String) (u w src : String)
    (now : Nat) (st : ServiceState) :
    (updateLearningVocabAsync orig u w src now st).2.db =
      if hasChinese w then st.db else
      match findActiveVocab u (orig w) st.db with
      | some _ => updateFirstVocab
          (fun v => v.user_id == u && v.word == orig w && v.is_active)
          (applyUsageToRecord src now)
          st.db
      | none =>
          if src ≠ "right_use" then
            st.db ++ [{ user_id := u, word := orig w, source := some src,
                        level := some "none",
                        wrong_use_count := if wrongUseSources.contains src then 1 else 0,
                        right_use_count := 0, last_used := some now, added_date := now,
                        mastery_score := 0, is_active := true, isMastered := false }]
          else st.db := by
  unfold updateLearningVocabAsync
  split
  · rfl
  · cases hf : findActiveVocab u (orig w) st.db with
    | some v0 => simp only [hf]; rfl
    | none => by_cases hs : src = "right_use" <;> simp [hf, hs]

/-- The spec's central record invariant: for every active record,
`isMastered` equals `right_use_count - wrong_use_count >= 3`. -/
def MasteryInv (db : List VocabItem) : Prop :=
  ∀ v ∈ db, v.is_active = true →
    v.isMastered = decide (v.right_use_count - v.wrong_use_count ≥ 3)

theorem masteryInv_step (orig : String → String) (u w src : String) (now : Nat)
    (st : ServiceState) (h : MasteryInv st.db) :
    MasteryInv ((updateLearningVocabAsync orig u w src now st).2.db) := by
  rw [updateLearningVocabAsync_db]
  split
  · exact h
  · cases hf : findActiveVocab u (orig w) st.db with
    | some v0 =>
        simp only [hf]
        intro v hv ha
        rcases mem_updateFirstVocab hv with hv' | ⟨x, _, rfl⟩
        · exact h v hv' ha
        · rfl
    | none =>
        simp only [hf]
        by_cases hs : src = "right_use"
        · simp only [hs, ne_eq, not_true_eq_false, if_false]
          exact h
        · rw [if_pos hs]
          intro v hv ha
          rcases List.mem_append.mp hv with hv' | hv'
          · exact h v hv' ha
          · rcases List.mem_singleton.mp hv' with rfl
            by_cases hw : src ∈ wrongUseSources <;> simp [hw] <;> decide

/-- Applying a whole sequence of usage events through the live update path. -/
def applyUsageEvents (orig : String → String)
    (evs : List (String × String × String × Nat)) (st : ServiceState) : ServiceState :=
  evs.foldl (fun s e => (updateLearningVocabAsync orig e.1 e.2.1 e.2.2.1 e.2.2.2 s).2) st

theorem masteryInv_applyUsageEvents (orig : String → String)
    (evs : List (String × String × String × Nat)) (st : ServiceState)
    (h : MasteryInv st.db) : MasteryInv ((applyUsageEvents orig evs st).db) := by
  induction evs generalizing st with
  | nil => exact h
  | cons e rest ih => exact ih _ (masteryInv_step orig e.1 e.2.1 e.2.2.1 e.2.2.2 st h)

/-- C1: for every active record and every sequence of usage events applied via
the usage-update operation (`_update_learning_vocab_async`, and the
`VocabManager._update_vocab_background` variant), after each call the stored
`isMastered` flag equals `right_use_count - wrong_use_count >= 3`, for all
usage kinds — indeed for arbitrary `source` strings, which include the four
usage kinds `right_use`, `wrong_use`, `lookup` and `user_input`. -/
theorem C1_mastery_invariant_preserved
    (orig : String → String) (u w src mw msrc muid : String) (now mnow : Nat)
    (st : ServiceState) (mst : ManagerState)
    (evs : List (String × String × String × Nat))
    (h : MasteryInv st.db) (hm : MasteryInv mst.db) :
    MasteryInv ((updateLearningVocabAsync orig u w src now st).2.db) ∧
    MasteryInv ((updateVocabBackground mw msrc muid mnow mst).2.db) ∧
    MasteryInv ((applyUsageEvents orig evs st).db) := by
  refine ⟨masteryInv_step orig u w src now st h, ?_, masteryInv_applyUsageEvents orig evs st h⟩
  rw [updateVocabBackground_db]
  exact hm

/-- Witness for C1 at concrete inputs: a fresh store, a `lookup` event and a
two-event sequence (`lookup` then `right_use`). -/
theorem C1_mastery_invariant_preserved_witness :
    MasteryInv ((updateLearningVocabAsync idNorm "u" "cat" "lookup" 1 emptyState).2.db) ∧
    MasteryInv ((applyUsageEvents idNorm
      [("u", "cat", "lookup", 1), ("u", "cat", "right_use", 2)] emptyState).db) := by
  have hmain := C1_mastery_invariant_preserved idNorm "u" "cat" "lookup" "dog" "lookup" "u"
    1 2 emptyState { has_unsaved_changes := false, db := [] }
    [("u", "cat", "lookup", 1), ("u", "cat", "right_use", 2)]
    (by intro v hv; simp [emptyState] at hv) (by intro v hv; simp at hv)
  exact ⟨hmain.1, hmain.2.2⟩

/-!
## Counter monotonicity (claim C8)
-/

/-- Same record (same key), with counters not decreased. -/
def counterMono (a b : VocabItem) : Prop :=
  a.user_id = b.user_id ∧ a.word = b.word ∧
    a.right_use_count ≤ b.right_use_count ∧ a.wrong_use_count ≤ b.wrong_use_count

/-- Store evolution: every pre-existing row (by position — rows are updated in
place and new rows are appended) is still the same record with counters at
least as large. -/
def dbMono (d d' : List VocabItem) : Prop :=
  List.Forall₂ counterMono d (d'.take d.length)

theorem forallTwoSelf (l : List VocabItem) : List.Forall₂ counterMono l l := by
  induction l with
  | nil => exact List.Forall₂.nil
  | cons v rest ih => exact List.Forall₂.cons ⟨rfl, rfl, le_refl _, le_refl _⟩ ih

theorem forallTwoTake {r : VocabItem → VocabItem → Prop} {l₁ l₂ : List VocabItem}
    (h : List.Forall₂ r l₁ l₂) (n : Nat) : List.Forall₂ r (l₁.take n) (l₂.take n) := by
  induction h generalizing n with
  | nil => simp
  | cons hr _ ih =>
      cases n with
      | zero => simp
      | succ m => exact List.Forall₂.cons hr (ih m)

theorem forallTwoTrans {l₁ l₂ l₃ : List VocabItem}
    (h₁ : List.Forall₂ counterMono l₁ l₂) (h₂ : List.Forall₂ counterMono l₂ l₃) :
    List.Forall₂ counterMono l₁ l₃ := by
  induction h₁ generalizing l₃ with
  | nil => cases h₂; exact List.Forall₂.nil
  | cons hr _ ih =>
      cases h₂ with
      | cons hr' htail =>
          exact List.Forall₂.cons
            ⟨hr.1.trans hr'.1, hr.2.1.trans hr'.2.1,
             hr.2.2.1.trans hr'.2.2.1, hr.2.2.2.trans hr'.2.2.2⟩ (ih htail)

theorem dbMono_refl (d : List VocabItem) : dbMono d d := by
  unfold dbMono
  rw [List.take_length]
  exact forallTwoSelf d

theorem dbMono_length {d d' : List VocabItem} (h : dbMono d d') :
    d.length ≤ d'.length := by
  have := List.Forall₂.length_eq h
  simp only [List.length_take] at this
  omega

theorem dbMono_trans {d₁ d₂ d₃ : List VocabItem}
    (h₁ : dbMono d₁ d₂) (h₂ : dbMono d₂ d₃) : dbMono d₁ d₃ := by
  have hlen : d₁.length ≤ d₂.length := dbMono_length h₁
  have h₂' := forallTwoTake h₂ d₁.length
  rw [List.take_take, Nat.min_eq_left hlen] at h₂'
  unfold dbMono
  exact forallTwoTrans h₁ h₂'

theorem forallTwoUpdateFirst (p : VocabItem → Bool) (f : VocabItem → VocabItem)
    (hf : ∀ v, counterMono v (f v)) (l : List VocabItem) :
    List.Forall₂ counterMono l (updateFirstVocab p f l) := by
  induction l with
  | nil => exact List.Forall₂.nil
  | cons v rest ih =>
      simp only [updateFirstVocab]
      by_cases hp : p v
      · rw [if_pos hp]
        exact List.Forall₂.cons (hf v) (forallTwoSelf rest)
      · rw [if_neg hp]
        exact List.Forall₂.cons ⟨rfl, rfl, le_refl _, le_refl _⟩ ih

theorem length_updateFirstVocab (p : VocabItem → Bool) (f : VocabItem → VocabItem)
    (l : List VocabItem) : (updateFirstVocab p f l).length = l.length := by
  induction l with
  | nil => rfl
  | cons v rest ih =>
      simp only [updateFirstVocab]
      by_cases hp : p v
      · rw [if_pos hp]; simp
      · rw [if_neg hp]; simp [ih]

theorem dbMono_step (orig : String → String) (u w src : String) (now : Nat)
    (st : ServiceState) :
    dbMono st.db ((updateLearningVocabAsync orig u w src now st).2.db) := by
  rw [updateLearningVocabAsync_db]
  split
  · exact dbMono_refl st.db
  · cases hf : findActiveVocab u (orig w) st.db with
    | some v0 =>
        simp only [hf]
        unfold dbMono
        have hlen := length_updateFirstVocab
          (fun v => v.user_id == u && v.word == orig w && v.is_active)
          (applyUsageToRecord src now) st.db
        rw [← hlen, List.take_length]
        apply forallTwoUpdateFirst
        intro v
        unfold counterMono applyUsageToRecord
        by_cases hw : src ∈ wrongUseSources
        · by_cases hr : src = "right_use"
          · exact absurd (hr ▸ hw) (by decide)
          · simp [hw, hr]
        · have hw' : ¬(src = "user_input" ∨ src = "lookup" ∨ src = "wrong_use") := by
            simpa [wrongUseSources] using hw
          by_cases hr : src = "right_use" <;> simp [wrongUseSources, hw', hr]
    | none =>
        simp only [hf]
        by_cases hs : src = "right_use"
        · simp only [hs, ne_eq, not_true_eq_false, if_false]
          exact dbMono_refl st.db
        · rw [if_pos hs]
          unfold dbMono
          rw [List.take_left]
          exact forallTwoSelf st.db

theorem dbMono_applyUsageEvents (orig : String → String)
    (evs : List (String × String × String × Nat)) (st : ServiceState) :
    dbMono st.db ((applyUsageEvents orig evs st).db) := by
  induction evs generalizing st with
  | nil => exact dbMono_refl st.db
  | cons e rest ih =>
      exact dbMono_trans (dbMono_step orig e.1 e.2.1 e.2.2.1 e.2.2.2 st) (ih _)

/-- C8: for every record, `right_use_count` and `wrong_use_count` are
monotonically non-decreasing across the record's lifetime: no usage kind
(indeed no `source` string at all) ever decrements either counter, in a
single usage-update call of either implementation or across any sequence of
calls. -/
theorem C8_counters_monotonic
    (orig : String → String) (u w src mw msrc muid : String) (now mnow : Nat)
    (st : ServiceState) (mst : ManagerState)
    (evs : List (String × String × String × Nat)) :
    dbMono st.db ((updateLearningVocabAsync orig u w src now st).2.db) ∧
    dbMono mst.db ((updateVocabBackground mw msrc muid mnow mst).2.db) ∧
    dbMono st.db ((applyUsageEvents orig evs st).db) := by
  refine ⟨dbMono_step orig u w src now st, ?_, dbMono_applyUsageEvents orig evs st⟩
  rw [updateVocabBackground_db]
  exact dbMono_refl mst.db

/-!
## Helper lemmas for the dual-write claims
-/

theorem dictGet_dictSet (k : String) (v : α) (d : List (String × α)) :
    dictGet k (dictSet k v d) = some v := by
  unfold dictGet dictSet
  by_cases h : (d.find? (fun p => p.1 = k)).isSome
  · rw [if_pos h]
    induction d with
    | nil => simp at h
    | cons p rest ih =>
        by_cases hp : p.1 = k
        · simp [List.find?_cons, hp]
        · simp only [List.map_cons, if_neg hp]
          rw [List.find?_cons_of_neg _ (by simpa using hp)]
          apply ih
          rwa [List.find?_cons_of_neg _ (by simpa using hp)] at h
  · rw [if_neg h]
    induction d with
    | nil => simp
    | cons p rest ih =>
        by_cases hp : p.1 = k
        · exfalso
          apply h
          simp [List.find?_cons, hp]
        · simp only [List.cons_append]
          rw [List.find?_cons_of_neg _ (by simpa using hp)]
          apply ih
          intro h'
          apply h
          rw [List.find?_cons_of_neg _ (by simpa using hp)]
          exact h'

/-- `_update_learning_vocab_async` always reports success: every control path
ends in `return True`. -/
theorem updateLearningVocabAsync_fst (orig : String → String) (u w src : String)
    (now : Nat) (st : ServiceState) :
    (updateLearningVocabAsync orig u w src now st).1 = true := by
  unfold updateLearningVocabAsync
  split
  · rfl
  · cases hf : findActiveVocab u (orig w) st.db with
    | some v0 => simp [hf]
    | none => by_cases hs : src = "right_use" <;> simp [hf, hs]

/-- The staged cache after `_update_learning_vocab_async` on a non-Chinese
word always holds an entry for `(user, normalized word)`. -/
theorem updateLearningVocabAsync_staged (orig : String → String) (u w src : String)
    (now : Nat) (st : ServiceState) (hnc : hasChinese w = false) :
    ∃ um e, dictGet u ((updateLearningVocabAsync orig u w src now st).2.memory_cache) = some um ∧
      dictGet (orig w) um = some e := by
  unfold updateLearningVocabAsync
  rw [if_neg (by simp [hnc])]
  cases hf : findActiveVocab u (orig w) st.db with
  | some v0 =>
      simp only [hf]
      exact ⟨_, _, dictGet_dictSet _ _ _, dictGet_dictSet _ _ _⟩
  | none =>
      simp only [hf]
      by_cases hs : src = "right_use"
      · rw [if_neg (not_not_intro hs)]
        exact ⟨_, _, dictGet_dictSet _ _ _, dictGet_dictSet _ _ _⟩
      · rw [if_pos hs]
        exact ⟨_, _, dictGet_dictSet _ _ _, dictGet_dictSet _ _ _⟩

theorem find?_updateFirstVocab (p : VocabItem → Bool) (f : VocabItem → VocabItem)
    (l : List VocabItem) (v : VocabItem) (hv : l.find? p = some v)
    (hfp : p (f v) = true) : (updateFirstVocab p f l).find? p = some (f v) := by
  induction l with
  | nil => simp at hv
  | cons x rest ih =>
      by_cases hp : p x
      · rw [List.find?_cons_of_pos _ hp] at hv
        cases hv
        simp only [updateFirstVocab, if_pos hp]
        rw [List.find?_cons_of_pos _ hfp]
      · rw [List.find?_cons_of_neg _ (by simpa using hp)] at hv
        simp only [updateFirstVocab, if_neg hp]
        rw [List.find?_cons_of_neg _ (by simpa using hp)]
        exact ih hv

/-- `update_vocabulary_usage` never succeeds and never changes the store: a
Chinese word returns `False` directly, and every other input raises
`AttributeError` on a read-only compatibility property before `db.commit()`,
so the `except` clause rolls back and returns `False`. -/
theorem updateVocabularyUsage_const (orig : String → String)
    (u w usage : String) (now : Nat) (db : List VocabItem) :
    updateVocabularyUsage orig u w usage now db = (false, db) := by
  unfold updateVocabularyUsage updateVocabularyUsageCore
  by_cases hc : hasChinese w
  · simp [hc, pure, Except.pure]
  · by_cases h1 : (usage == "right_use") = true <;>
      by_cases h2 : wrongUseSources.contains usage = true <;>
        simp [hc, h1, h2, throw, throwThe, MonadExceptOf.throw]

theorem applyUsageToRecord_fields (src : String) (now : Nat) (v : VocabItem) :
    (applyUsageToRecord src now v).user_id = v.user_id ∧
    (applyUsageToRecord src now v).word = v.word ∧
    (applyUsageToRecord src now v).is_active = v.is_active ∧
    (applyUsageToRecord src now v).right_use_count
      = v.right_use_count + (if src = "right_use" then 1 else 0) ∧
    (applyUsageToRecord src now v).wrong_use_count
      = v.wrong_use_count + (if src ∈ wrongUseSources then 1 else 0) ∧
    (applyUsageToRecord src now v).isMastered
      = decide ((applyUsageToRecord src now v).right_use_count
          - (applyUsageToRecord src now v).wrong_use_count ≥ 3) ∧
    (applyUsageToRecord src now v).last_used = some now := by
  unfold applyUsageToRecord
  by_cases hw : src ∈ wrongUseSources
  · by_cases hr : src = "right_use"
    · exact absurd (hr ▸ hw) (by decide)
    · simp [hw, hr]
  · have hw' : ¬(src = "user_input" ∨ src = "lookup" ∨ src = "wrong_use") := by
      simpa [wrongUseSources] using hw
    by_cases hr : src = "right_use" <;> simp [wrongUseSources, hw', hr]

/-!
## Claim C2: `right_use` on an untracked word
-/

/-- C2 counterexample: on the live update path a `right_use` event for a word
with no active record leaves the durable store unchanged and creates no
record, but the call returns `True` — the same positive result as a real
update — rather than a rejected (negative) result.  The rejection exists only
as a log line, so the claim "returns a Rejected result" is false on the code. -/
theorem C2_counterexample_right_use_reports_success :
    (updateLearningVocabAsync idNorm "u1" "rain" "right_use" 0 emptyState).1 = true ∧
    ¬((updateLearningVocabAsync idNorm "u1" "rain" "right_use" 0 emptyState).1 = false) ∧
    (updateLearningVocabAsync idNorm "u1" "rain" "right_use" 0 emptyState).2.db = [] := by
  decide

/-- C2 amended: applying `right_use` when no active record exists leaves the
durable vocabulary store unchanged and never creates a brand-new record, but
the live operation reports success (`True`) instead of a rejected result.
(The legacy `update_vocabulary_usage` endpoint path does return `False` with
the store unchanged — because every call of it fails on a read-only
compatibility property and rolls back.) -/
theorem C2_amended_right_use_no_record (orig : String → String) (u w : String)
    (now : Nat) (st : ServiceState) (db : List VocabItem)
    (hno : findActiveVocab u (orig w) st.db = none) :
    (updateLearningVocabAsync orig u w "right_use" now st).2.db = st.db ∧
    (updateLearningVocabAsync orig u w "right_use" now st).1 = true ∧
    updateVocabularyUsage orig u w "right_use" now db = (false, db) := by
  refine ⟨?_, updateLearningVocabAsync_fst orig u w "right_use" now st,
    updateVocabularyUsage_const orig u w "right_use" now db⟩
  rw [updateLearningVocabAsync_db]
  by_cases hc : hasChinese w
  · simp [hc]
  · simp [hc, hno]

/-- Witness for C2 at a concrete input: user `u1`, word `rain`, empty store. -/
theorem C2_amended_right_use_no_record_witness :
    (updateLearningVocabAsync idNorm "u1" "rain" "right_use" 0 emptyState).2.db = emptyState.db ∧
    (updateLearningVocabAsync idNorm "u1" "rain" "right_use" 0 emptyState).1 = true ∧
    updateVocabularyUsage idNorm "u1" "rain" "right_use" 0 [] = (false, []) :=
  C2_amended_right_use_no_record idNorm "u1" "rain" 0 emptyState [] (by decide)

/-!
## Claim C3: synchronous dual write
-/

/-- C3 counterexample: a `right_use` on an untracked word returns success and
records a staged `+1 right_use` delta in the in-memory cache, yet the durable
store still holds no record for `(user, word)` — so "after the update
operation returns success, the durable record already reflects the
incremented counter" fails as stated. -/
theorem C3_counterexample_staged_delta_not_durable :
    updateLearningVocabAsync idNorm "u1" "rain" "right_use" 0 emptyState =
      (true,
        { memory_cache := [("u1", [("rain",
            { right_use_count := 1, wrong_use_count := 0,
              last_updated := 0, source := "right_use" })])],
          has_unsaved_changes := [("u1", true)],
          db := [] }) ∧
    ¬(∃ v ∈ (updateLearningVocabAsync idNorm "u1" "rain" "right_use" 0 emptyState).2.db,
        v.user_id = "u1" ∧ v.word = "rain") := by
  decide

/-- C3 amended: every usage update that finds an active record for
`(user, word)` is applied synchronously to the durable store in the same
call — after the call, the durable record already holds the incremented
counter, the recomputed mastery flag and the new `last_used` stamp,
independently of any later flush — in addition to the staged delta recorded
in the in-memory cache.  Only a `right_use` with no active record returns
success while merely staging. -/
theorem C3_amended_synchronous_dual_write (orig : String → String)
    (u w src : String) (now : Nat) (st : ServiceState) (v : VocabItem)
    (hnc : hasChinese w = false)
    (hfound : findActiveVocab u (orig w) st.db = some v) :
    (updateLearningVocabAsync orig u w src now st).1 = true ∧
    (findActiveVocab u (orig w) ((updateLearningVocabAsync orig u w src now st).2.db)
        = some (applyUsageToRecord src now v) ∧
      (applyUsageToRecord src now v).right_use_count
        = v.right_use_count + (if src = "right_use" then 1 else 0) ∧
      (applyUsageToRecord src now v).wrong_use_count
        = v.wrong_use_count + (if src ∈ wrongUseSources then 1 else 0) ∧
      (applyUsageToRecord src now v).isMastered
        = decide ((applyUsageToRecord src now v).right_use_count
            - (applyUsageToRecord src now v).wrong_use_count ≥ 3) ∧
      (applyUsageToRecord src now v).last_used = some now) ∧
    (∃ um e, dictGet u ((updateLearningVocabAsync orig u w src now st).2.memory_cache) = some um ∧
      dictGet (orig w) um = some e) := by
  have hfields := applyUsageToRecord_fields src now v
  refine ⟨updateLearningVocabAsync_fst orig u w src now st,
    ⟨?_, hfields.2.2.2.1, hfields.2.2.2.2.1, hfields.2.2.2.2.2.1, hfields.2.2.2.2.2.2⟩,
    updateLearningVocabAsync_staged orig u w src now st hnc⟩
  rw [updateLearningVocabAsync_db]
  rw [if_neg (by simp [hnc])]
  simp only [hfound]
  unfold findActiveVocab at hfound ⊢
  apply find?_updateFirstVocab _ _ _ _ hfound
  have hp := List.find?_some hfound
  simp only [Bool.and_eq_true, beq_iff_eq] at hp
  simp [hfields.1, hfields.2.1, hfields.2.2.1, hp.1.1, hp.1.2, hp.2]

/-- A concrete active record for the C3 witness. -/
def crRain : VocabItem :=
  { user_id := "u1", word := "rain", source := some "lookup",
    level := some "none", wrong_use_count := 0, right_use_count := 0,
    last_used := some 0, added_date := 0, mastery_score := 0,
    is_active := true, isMastered := false }

/-- Witness for C3 at a concrete input: an existing active record for
`(u1, rain)` receives a `wrong_use` event. -/
theorem C3_amended_synchronous_dual_write_witness :
    (updateLearningVocabAsync idNorm "u1" "rain" "wrong_use" 5
      { emptyState with db := [crRain] }).1 = true ∧
    (findActiveVocab "u1" "rain"
        ((updateLearningVocabAsync idNorm "u1" "rain" "wrong_use" 5
          { emptyState with db := [crRain] }).2.db)
        = some (applyUsageToRecord "wrong_use" 5 crRain) ∧
      (applyUsageToRecord "wrong_use" 5 crRain).right_use_count
        = crRain.right_use_count + (if "wrong_use" = "right_use" then 1 else 0) ∧
      (applyUsageToRecord "wrong_use" 5 crRain).wrong_use_count
        = crRain.wrong_use_count + (if "wrong_use" ∈ wrongUseSources then 1 else 0) ∧
      (applyUsageToRecord "wrong_use" 5 crRain).isMastered
        = decide ((applyUsageToRecord "wrong_use" 5 crRain).right_use_count
            - (applyUsageToRecord "wrong_use" 5 crRain).wrong_use_count ≥ 3) ∧
      (applyUsageToRecord "wrong_use" 5 crRain).last_used = some 5) ∧
    (∃ um e, dictGet "u1" ((updateLearningVocabAsync idNorm "u1" "rain" "wrong_use" 5
        { emptyState with db := [crRain] }).2.memory_cache) = some um ∧
      dictGet "rain" um = some e) :=
  C3_amended_synchronous_dual_write idNorm "u1" "rain" "wrong_use" 5
    { emptyState with db := [crRain] } crRain (by decide) (by decide)

/-!
## Claim C4: flush semantics
-/

/-- C4: the flush path (`_perform_batch_save`) performs no durable-store
write at all — its store-apply step is a stub — yet it clears every
non-empty staged map and resets the user's unsaved flag.  End-to-end at a
concrete input: a staged `right_use` delta for an untracked word (which the
synchronous write also never persisted) is dropped by the flush without ever
reaching the store. -/
theorem C4_flush_clears_without_applying :
    (∀ st : ServiceState, (performBatchSave st).db = st.db) ∧
    performBatchSave (updateLearningVocabAsync idNorm "u1" "rain" "right_use" 0 emptyState).2 =
      { memory_cache := [("u1", [])], has_unsaved_changes := [("u1", false)], db := [] } := by
  constructor
  · intro st
    unfold performBatchSave
    split <;> rfl
  · decide

/-!
## Claim C5: the stored `mastery_score` field
-/

/-- C5: the stored `mastery_score` is not the derived integer
`right_use_count - wrong_use_count`.  The live update path never writes the
`mastery_score` column (a created record keeps the column default `0.0` and
updates leave it untouched), and both legacy paths that would write it
(`update_vocabulary_usage`, which would store a clamped rescaling
`max(0, min(1, (right-wrong)/3))`, and `_update_vocab_background`, which
would store the raw difference) raise `AttributeError` on read-only
compatibility properties and roll back before committing.  Concretely: an
active record with counters `(right, wrong) = (0, 0)` and `mastery_score = 0`
receives one `wrong_use`; afterwards the counters are `(0, 1)` but the stored
`mastery_score` is still `0`, not `-1`. -/
theorem C5_mastery_score_not_derived :
    (updateLearningVocabAsync idNorm "u1" "rain" "wrong_use" 1
        { emptyState with db := [crRain] }).2.db
      = [applyUsageToRecord "wrong_use" 1 crRain] ∧
    (applyUsageToRecord "wrong_use" 1 crRain).right_use_count = 0 ∧
    (applyUsageToRecord "wrong_use" 1 crRain).wrong_use_count = 1 ∧
    (applyUsageToRecord "wrong_use" 1 crRain).mastery_score = 0 ∧
    ¬((applyUsageToRecord "wrong_use" 1 crRain).mastery_score
        = (((applyUsageToRecord "wrong_use" 1 crRain).right_use_count
            - (applyUsageToRecord "wrong_use" 1 crRain).wrong_use_count : Int) : ℚ)) ∧
    (∀ orig u w usage now db, updateVocabularyUsage orig u w usage now db = (false, db)) ∧
    (∀ word source uid now mst,
      (updateVocabBackground word source uid now mst).2.db = mst.db) := by
  refine ⟨by decide, by decide, by decide, by decide, by decide,
    updateVocabularyUsage_const, updateVocabBackground_db⟩

/-!
## Claim C6: ranking and truncation in the recommender
-/

/-- Two active, unmastered candidate records for user `u1`. -/
def dbTwoCandidates : List VocabItem :=
  [{ crRain with word := "alpha" }, { crRain with word := "beta" }]

/-- An embedding capability that answers every encoding request with `[1]`. -/
def constEncode : EmbedModel := { encode := fun _ => Except.ok [1] }

/-- C6 counterexample: with two candidate words and `top_n = -1` the
recommender returns one word, not the empty list — Python's
`word_sim_pairs[:top_n]` slice with a negative bound drops the last
`|top_n|` entries instead of yielding `[]`, so "for every `top_n <= 0` it
returns the empty list" is false on the code.  (A constant similarity scorer
makes the stable sort keep table order, so the survivor is `alpha`.) -/
theorem C6_counterexample_negative_top_n :
    findSimilarVocabulary (some constEncode) (fun _ _ => 0) "hi" "there" "u1"
        dbTwoCandidates (-1) = ["alpha"] ∧
    ¬(findSimilarVocabulary (some constEncode) (fun _ _ => 0) "hi" "there" "u1"
        dbTwoCandidates (-1) = []) := by
  decide

theorem dedupKeepFirst_aux :
    ∀ (l acc : List String), l.Nodup → (∀ a ∈ l, a ∉ acc) →
      l.foldl (fun acc w => if acc.contains w then acc else acc ++ [w]) acc = acc ++ l := by
  intro l
  induction l with
  | nil => intro acc _ _; simp
  | cons x rest ih =>
      intro acc hd hn
      simp only [List.foldl_cons]
      have hx : acc.contains x = false := by
        simpa using hn x (List.mem_cons_self x rest)
      rw [hx]
      simp only [Bool.false_eq_true, if_false]
      rw [ih (acc ++ [x]) (List.nodup_cons.mp hd).2 ?side]
      · simp
      case side =>
        intro a ha
        simp only [List.mem_append, List.mem_singleton]
        rintro (h1 | rfl)
        · exact hn a (List.mem_cons_of_mem x ha) h1
        · exact (List.nodup_cons.mp hd).1 ha

theorem dedupKeepFirst_of_nodup (l : List String) (hd : l.Nodup) :
    dedupKeepFirst l = l := by
  unfold dedupKeepFirst
  rw [dedupKeepFirst_aux l [] hd (by simp)]
  simp

theorem exceptMapM_ok_length {f : String → Except PyErr (List ℚ)}
    {l : List String} {l' : List (List ℚ)} (h : exceptMapM f l = Except.ok l') :
    l'.length = l.length := by
  induction l generalizing l' with
  | nil =>
      simp only [exceptMapM] at h
      cases h
      rfl
  | cons x rest ih =>
      simp only [exceptMapM] at h
      cases hx : f x with
      | error e => rw [hx] at h; simp at h
      | ok v =>
          rw [hx] at h
          cases hrest : exceptMapM f rest with
          | error e => rw [hrest] at h; simp at h
          | ok vs =>
              rw [hrest] at h
              simp only at h
              cases h
              simp [ih hrest]

instance : IsTotal (String × ℚ) (fun a b => b.2 ≤ a.2) :=
  ⟨fun a b => le_total b.2 a.2⟩

instance : IsTrans (String × ℚ) (fun a b => b.2 ≤ a.2) :=
  ⟨fun _ _ _ h1 h2 => le_trans h2 h1⟩

/-- C6 amended: for every injected embedding model and similarity scorer,
whenever the context encoding succeeds and the candidate fetch succeeds (with
pairwise-distinct candidate words, as the active-record uniqueness invariant
guarantees), the recommender returns the candidate words sorted by their
similarity score, highest first (stably), cut by the Python slice
`[:top_n]` — so `top_n = 0` yields `[]`, positive `top_n` yields at most
`top_n` words, and *negative* `top_n` yields all but the last `|top_n|`
candidates rather than the empty list. -/
theorem C6_amended_sorted_and_sliced (em : EmbedModel)
    (cosine : List ℚ → List ℚ → ℚ) (ui ar uid : String) (db : List VocabItem)
    (n : Int) (hist : List ℚ) (embs : List (List ℚ)) (words : List String)
    (hctx : em.encode (ui ++ " " ++ ar) = Except.ok hist)
    (hcomp : computeVocabEmbeddings (some em) uid db = some (embs, words))
    (hnodup : words.Nodup) :
    findSimilarVocabulary (some em) cosine ui ar uid db n =
      (pySlice n (List.insertionSort (fun a b : String × ℚ => b.2 ≤ a.2)
        ((List.range words.length).map (fun i =>
          (words.getD i "", (embs.map (fun e => cosine e hist)).getD i 0))))).map
        Prod.fst ∧
    List.Sorted (fun a b : String × ℚ => b.2 ≤ a.2)
      (List.insertionSort (fun a b : String × ℚ => b.2 ≤ a.2)
        ((List.range words.length).map (fun i =>
          (words.getD i "", (embs.map (fun e => cosine e hist)).getD i 0)))) ∧
    (List.insertionSort (fun a b : String × ℚ => b.2 ≤ a.2)
        ((List.range words.length).map (fun i =>
          (words.getD i "", (embs.map (fun e => cosine e hist)).getD i 0)))).Perm
      ((List.range words.length).map (fun i =>
          (words.getD i "", (embs.map (fun e => cosine e hist)).getD i 0))) ∧
    findSimilarVocabulary (some em) cosine ui ar uid db 0 = [] := by
  have heq : ∀ n' : Int, findSimilarVocabulary (some em) cosine ui ar uid db n' =
      (pySlice n' (List.insertionSort (fun a b : String × ℚ => b.2 ≤ a.2)
        ((List.range words.length).map (fun i =>
          (words.getD i "", (embs.map (fun e => cosine e hist)).getD i 0))))).map
        Prod.fst := by
    intro n'
    unfold findSimilarVocabulary findSimilarVocabularyCore
    simp only [bind, Except.bind, hctx, hcomp, dedupKeepFirst_of_nodup words hnodup]
    rfl
  refine ⟨heq n, List.sorted_insertionSort _ _, List.perm_insertionSort _ _, ?_⟩
  rw [heq 0]
  simp [pySlice]

/-- Witness for C6 at a concrete input: two candidates and `top_n = 2`. -/
theorem C6_amended_sorted_and_sliced_witness :
    findSimilarVocabulary (some constEncode) (fun _ _ => 0) "hi" "there" "u1"
        dbTwoCandidates 2 =
      (pySlice 2 (List.insertionSort (fun a b : String × ℚ => b.2 ≤ a.2)
        ((List.range ["alpha", "beta"].length).map (fun i =>
          (["alpha", "beta"].getD i "",
            (([[1], [1]] : List (List ℚ)).map (fun e => (0 : ℚ))).getD i 0))))).map
        Prod.fst ∧
    List.Sorted (fun a b : String × ℚ => b.2 ≤ a.2)
      (List.insertionSort (fun a b : String × ℚ => b.2 ≤ a.2)
        ((List.range ["alpha", "beta"].length).map (fun i =>
          (["alpha", "beta"].getD i "",
            (([[1], [1]] : List (List ℚ)).map (fun e => (0 : ℚ))).getD i 0)))) ∧
    (List.insertionSort (fun a b : String × ℚ => b.2 ≤ a.2)
        ((List.range ["alpha", "beta"].length).map (fun i =>
          (["alpha", "beta"].getD i "",
            (([[1], [1]] : List (List ℚ)).map (fun e => (0 : ℚ))).getD i 0)))).Perm
      ((List.range ["alpha", "beta"].length).map (fun i =>
          (["alpha", "beta"].getD i "",
            (([[1], [1]] : List (List ℚ)).map (fun e => (0 : ℚ))).getD i 0))) ∧
    findSimilarVocabulary (some constEncode) (fun _ _ => 0) "hi" "there" "u1"
        dbTwoCandidates 0 = [] :=
  C6_amended_sorted_and_sliced constEncode (fun _ _ => 0) "hi" "there" "u1"
    dbTwoCandidates 2 [1] [[1], [1]] ["alpha", "beta"]
    rfl rfl (by decide)

/-!
## Claim C7: recency fallback when the embedding model is unavailable
-/

/-- C7: with the embedding capability unavailable the request indeed does not
fail — but the fallback never returns the least-recently-reviewed words: its
query orders by `VocabItem.last_reviewed`, an attribute the model class does
not have (the column is `last_used`), so building the query raises
`AttributeError`, the handler returns `[]`, and the recommendation is always
empty.  Concretely, with one active non-mastered record (`rain`) the claim
expects `["rain"]` but the code yields `[]`. -/
theorem C7_fallback_always_empty :
    fallbackVocabularySuggestions "u1" [crRain] 5 = [] ∧
    (suggestVocabularySemantic none (fun _ _ => 0) [] "u1" "hi" "there" [crRain] 5).1 = [] ∧
    ¬((suggestVocabularySemantic none (fun _ _ => 0) [] "u1" "hi" "there" [crRain] 5).1
        = ["rain"]) ∧
    (∀ uid db limit, fallbackVocabularySuggestions uid db limit = []) :=
  ⟨rfl, rfl, by decide, fun _ _ _ => rfl⟩

/-!
## Claim C10: the recommenders never propagate an exception
-/

/-- `_get_unmastered_vocabulary` matches no rows (always-false filter). -/
theorem getUnmasteredVocabulary_empty (uid : String) (db : List VocabItem) :
    getUnmasteredVocabulary uid db = [] := by
  simp [getUnmasteredVocabulary]

/-- C10: for every input — any user, conversation texts, limit, store
contents, and any behaviour of the injected encoder, including raising — the
recommendation operations return a list and never propagate an exception:
`suggest_vocabulary_semantic` returns its fallback value (which is always
`[]`, both on the model-missing path and via its dead-filtered candidate
query), and `find_similar_vocabulary` returns `[]` whenever the context
encoding raises or the candidate-embedding computation fails. -/
theorem C10_recommenders_never_propagate
    (m : Option EmbedModel) (em : EmbedModel) (cosine : List ℚ → List ℚ → ℚ)
    (ecache : List (String × List ℚ)) (uid ui ar : String) (db : List VocabItem)
    (limit top_n : Int) :
    (suggestVocabularySemantic m cosine ecache uid ui ar db limit).1 = [] ∧
    (∀ e, em.encode (ui ++ " " ++ ar) = Except.error e →
      findSimilarVocabulary (some em) cosine ui ar uid db top_n = []) ∧
    (∀ hist, em.encode (ui ++ " " ++ ar) = Except.ok hist →
      computeVocabEmbeddings (some em) uid db = none →
      findSimilarVocabulary (some em) cosine ui ar uid db top_n = []) := by
  refine ⟨?_, ?_, ?_⟩
  · unfold suggestVocabularySemantic suggestVocabularySemanticCore
    cases m with
    | none => simp [fallbackVocabularySuggestions, fallbackVocabularySuggestionsCore,
        throw, throwThe, MonadExceptOf.throw, pure, Except.pure]
    | some em' =>
        simp [getUnmasteredVocabulary_empty, pure, Except.pure]
  · intro e he
    unfold findSimilarVocabulary findSimilarVocabularyCore
    simp [he, bind, Except.bind]
  · intro hist hctx hnone
    unfold findSimilarVocabulary findSimilarVocabularyCore
    simp [hctx, hnone, bind, Except.bind, pure, Except.pure]

/-- Witness for C10 at concrete inputs: a raising encoder and an encoder with
no candidates to embed. -/
theorem C10_recommenders_never_propagate_witness :
    (suggestVocabularySemantic none (fun _ _ => 0) [] "u1" "hi" "there" [] 5).1 = [] ∧
    findSimilarVocabulary (some { encode := fun _ => Except.error PyErr.valueError })
      (fun _ _ => 0) "hi" "there" "u1" [] 3 = [] ∧
    findSimilarVocabulary (some constEncode) (fun _ _ => 0) "hi" "there" "u1" [] 3 = [] := by
  have h := C10_recommenders_never_propagate none
    { encode := fun _ => Except.error PyErr.valueError } (fun _ _ => 0)
    [] "u1" "hi" "there" [] 5 3
  have h2 := C10_recommenders_never_propagate (some constEncode) constEncode (fun _ _ => 0)
    [] "u1" "hi" "there" [] 5 3
  exact ⟨h.1, h.2.1 PyErr.valueError rfl, h2.2.2 [1] rfl rfl⟩

/-!
## Character and string lemmas for the normalizer
-/

theorem char_ofNat_toNat_of_upper (n : Nat) (h1 : 65 ≤ n) (h2 : n ≤ 90) :
    (Char.ofNat (n + 32)).toNat = n + 32 := by
  have hv : Nat.isValidChar (n + 32) := Or.inl (by omega)
  simp [Char.ofNat, Char.toNat, hv, Char.ofNatAux, UInt32.toNat, BitVec.toNat_ofNatLt]

theorem charToLower_toNat (c : Char) :
    c.toLower.toNat = if 65 ≤ c.toNat ∧ c.toNat ≤ 90 then c.toNat + 32 else c.toNat := by
  simp only [Char.toLower]
  split <;> rename_i h
  · exact char_ofNat_toNat_of_upper c.toNat h.1 h.2
  · rfl

theorem charToLower_eq_self (c : Char) (h : ¬(65 ≤ c.toNat ∧ c.toNat ≤ 90)) :
    c.toLower = c := by
  simp only [Char.toLower]
  rw [if_neg (by omega)]

theorem charToLower_idem (c : Char) : c.toLower.toLower = c.toLower := by
  by_cases h : 65 ≤ c.toNat ∧ c.toNat ≤ 90
  · apply charToLower_eq_self
    rw [charToLower_toNat, if_pos h]
    omega
  · rw [charToLower_eq_self c h]
    exact charToLower_eq_self c h

theorem char_ne_of_toNat_ne {a b : Char} (h : a.toNat ≠ b.toNat) : a ≠ b :=
  fun he => h (he ▸ rfl)

theorem charToLower_isWhitespace (c : Char) :
    c.toLower.isWhitespace = c.isWhitespace := by
  have hsp : (' ' : Char).toNat = 32 := by decide
  have htb : ('\t' : Char).toNat = 9 := by decide
  have hcr : ('\x0d' : Char).toNat = 13 := by decide
  have hlf : ('\n' : Char).toNat = 10 := by decide
  by_cases h : 65 ≤ c.toNat ∧ c.toNat ≤ 90
  · have ht : c.toLower.toNat = c.toNat + 32 := by rw [charToLower_toNat, if_pos h]
    have h1 : c.toLower.isWhitespace = false := by
      simp only [Char.isWhitespace, Bool.or_eq_false_iff, decide_eq_false_iff_not]
      refine ⟨⟨⟨?_, ?_⟩, ?_⟩, ?_⟩ <;> exact char_ne_of_toNat_ne (by omega)
    have h2 : c.isWhitespace = false := by
      simp only [Char.isWhitespace, Bool.or_eq_false_iff, decide_eq_false_iff_not]
      refine ⟨⟨⟨?_, ?_⟩, ?_⟩, ?_⟩ <;> exact char_ne_of_toNat_ne (by omega)
    rw [h1, h2]
  · rw [charToLower_eq_self c h]

theorem strLower_idem (s : Str) : strLower (strLower s) = strLower s := by
  unfold strLower
  rw [List.map_map]
  exact List.map_congr_left (fun c _ => charToLower_idem c)

theorem charToLower_beq_hyphen (c : Char) :
    (('-' : Char) == c.toLower) = (('-' : Char) == c) := by
  by_cases h : 65 ≤ c.toNat ∧ c.toNat ≤ 90
  · have ht : c.toLower.toNat = c.toNat + 32 := by rw [charToLower_toNat, if_pos h]
    have hh : ('-' : Char).toNat = 45 := by decide
    have h1 : (('-' : Char) == c.toLower) = false := by
      simp only [beq_eq_false_iff_ne, ne_eq]
      exact char_ne_of_toNat_ne (by omega)
    have h2 : (('-' : Char) == c) = false := by
      simp only [beq_eq_false_iff_ne, ne_eq]
      exact char_ne_of_toNat_ne (by omega)
    rw [h1, h2]
  · rw [charToLower_eq_self c h]

theorem contains_hyphen_strLower (s : Str) :
    (strLower s).contains '-' = s.contains '-' := by
  induction s with
  | nil => rfl
  | cons c rest ih =>
      simp only [strLower, List.map_cons, List.contains_cons] at *
      rw [charToLower_beq_hyphen, ih]

theorem pySplitAux_strLower (s : Str) :
    ∀ cur : Str, pySplitAux (strLower s) (strLower cur) = (pySplitAux s cur).map strLower := by
  induction s with
  | nil =>
      intro cur
      by_cases hc : cur = []
      · subst hc; rfl
      · simp only [strLower, pySplitAux]
        rw [if_neg (by simp [List.isEmpty_iff, hc]),
            if_neg (by simpa [List.isEmpty_iff] using hc)]
        simp [strLower, List.map_reverse]
  | cons c cs ih =>
      intro cur
      simp only [strLower, List.map_cons, pySplitAux]
      rw [charToLower_isWhitespace]
      by_cases hw : c.isWhitespace
      · rw [if_pos hw, if_pos hw]
        by_cases hc : cur = []
        · subst hc
          rw [if_pos (by simp), if_pos (by simp)]
          exact ih []
        · rw [if_neg (by simp [List.isEmpty_iff, hc]),
              if_neg (by simpa [List.isEmpty_iff] using hc)]
          simp only [List.map_cons]
          congr 1
          · simp [strLower, List.map_reverse]
          · exact ih []
      · rw [if_neg hw, if_neg hw]
        exact ih (c :: cur)

theorem pySplit_strLower (s : Str) :
    pySplit (strLower s) = (pySplit s).map strLower := by
  unfold pySplit
  exact pySplitAux_strLower s []

theorem pySplit_length_strLower (s : Str) :
    (pySplit (strLower s)).length = (pySplit s).length := by
  rw [pySplit_strLower, List.length_map]

theorem pySplitAux_no_ws (s : Str) :
    ∀ cur : Str, (∀ c ∈ s, c.isWhitespace = false) →
      pySplitAux s cur =
        if (cur.reverse ++ s).isEmpty then [] else [cur.reverse ++ s] := by
  induction s with
  | nil =>
      intro cur _
      simp [pySplitAux, List.isEmpty_iff]
  | cons c cs ih =>
      intro cur hno
      have hc : c.isWhitespace = false := hno c (List.mem_cons_self c cs)
      simp only [pySplitAux, hc, Bool.false_eq_true, if_false]
      rw [ih (c :: cur) (fun x hx => hno x (List.mem_cons_of_mem c hx))]
      have harr : (c :: cur).reverse ++ cs = cur.reverse ++ c :: cs := by
        simp
      rw [harr]

theorem pySplit_no_ws (s : Str) (hne : s ≠ [])
    (hno : ∀ c ∈ s, c.isWhitespace = false) : pySplit s = [s] := by
  unfold pySplit
  rw [pySplitAux_no_ws s [] hno]
  simp [List.isEmpty_iff, hne]

theorem head?_dropWhile (p : Char → Bool) (l : Str) (a : Char)
    (h : (l.dropWhile p).head? = some a) : p a = false := by
  induction l with
  | nil => simp [List.dropWhile] at h
  | cons c rest ih =>
      by_cases hp : p c
      · rw [List.dropWhile_cons_of_pos hp] at h
        exact ih h
      · rw [List.dropWhile_cons_of_neg hp] at h
        simp only [List.head?_cons, Option.some_inj] at h
        subst h
        simpa using hp

theorem dropWhile_eq_self_of_head? (p : Char → Bool) (l : Str)
    (h : ∀ a, l.head? = some a → p a = false) : l.dropWhile p = l := by
  cases l with
  | nil => rfl
  | cons c rest =>
      rw [List.dropWhile_cons_of_neg]
      simp [h c rfl]

theorem isPrefix_head? {l₁ l₂ : Str} (h : l₁ <+: l₂) (hne : l₁ ≠ []) :
    l₁.head? = l₂.head? := by
  obtain ⟨r, rfl⟩ := h
  cases l₁ with
  | nil => exact absurd rfl hne
  | cons c rest => rfl

theorem strStrip_prefix_dropWhile (s : Str) :
    strStrip s <+: s.dropWhile Char.isWhitespace := by
  unfold strStrip
  have hsuf : ((s.dropWhile Char.isWhitespace).reverse.dropWhile Char.isWhitespace)
      <:+ (s.dropWhile Char.isWhitespace).reverse := List.dropWhile_suffix _
  have := List.reverse_prefix.mpr hsuf
  simpa using this

theorem strStrip_idem (s : Str) : strStrip (strStrip s) = strStrip s := by
  have h1 : (strStrip s).dropWhile Char.isWhitespace = strStrip s := by
    by_cases hne : strStrip s = []
    · rw [hne]; rfl
    · apply dropWhile_eq_self_of_head?
      intro a ha
      rw [isPrefix_head? (strStrip_prefix_dropWhile s) hne] at ha
      exact head?_dropWhile _ _ _ ha
  have h2 : (strStrip s).reverse.dropWhile Char.isWhitespace = (strStrip s).reverse := by
    unfold strStrip
    rw [List.reverse_reverse]
    exact List.dropWhile_idempotent _ _
  show ((((strStrip s).dropWhile Char.isWhitespace).reverse).dropWhile Char.isWhitespace).reverse
      = strStrip s
  rw [h1, h2, List.reverse_reverse]

theorem strLower_strStrip (s : Str) :
    strLower (strStrip s) = strStrip (strLower s) := by
  have hmap : ∀ l : Str, (strLower l).dropWhile Char.isWhitespace
      = strLower (l.dropWhile Char.isWhitespace) := by
    intro l
    unfold strLower
    rw [List.dropWhile_map]
    have : (Char.isWhitespace ∘ Char.toLower) = Char.isWhitespace := by
      funext c
      exact charToLower_isWhitespace c
    rw [this]
  have strLower_reverse : ∀ l : Str, strLower l.reverse = (strLower l).reverse := by
    intro l
    unfold strLower
    exact List.map_reverse _ _
  show strLower (((s.dropWhile Char.isWhitespace).reverse.dropWhile Char.isWhitespace).reverse)
      = (((strLower s).dropWhile Char.isWhitespace).reverse.dropWhile Char.isWhitespace).reverse
  conv_rhs => rw [hmap s, ← strLower_reverse, hmap, ← strLower_reverse]

/-- A plain word: nonempty and purely alphabetic (hence no hyphen, no
whitespace). -/
def SimpleWord (s : Str) : Prop := s ≠ [] ∧ ∀ c ∈ s, c.isAlpha = true

theorem alpha_not_ws (c : Char) (h : c.isAlpha = true) : c.isWhitespace = false := by
  cases hw : c.isWhitespace
  · rfl
  · exfalso
    simp only [Char.isWhitespace, Bool.or_eq_true, decide_eq_true_eq] at hw
    rcases hw with ((rfl | rfl) | rfl) | rfl <;> exact absurd h (by decide)

theorem simpleWord_no_hyphen {s : Str} (h : SimpleWord s) : s.contains '-' = false := by
  have hnm : ('-' : Char) ∉ s := by
    intro hm
    exact absurd (h.2 _ hm) (by decide)
  simpa using hnm

/-- The contract assumed of the injected spaCy pipeline (trivial when the
model is absent): lemmas of alphabetic tokens are plain dictionary base
forms — lower-cased they are nonempty purely-alphabetic words that
re-tokenize to themselves (lemmatization is idempotent); lower-casing does
not make alphabetic tokens appear in an input that had none; and the
processed form of a detected collocation re-normalizes to itself. -/
def NlpWellFormed : Option NlpModel → Prop
  | none => True
  | some nlp =>
      (∀ s t, t ∈ nlp.tokenize s → t.is_alpha = true → SimpleWord (strLower t.lemma_)) ∧
      (∀ s t, t ∈ nlp.tokenize s → t.is_alpha = true →
        ∃ t', (nlp.tokenize (strLower t.lemma_)).find? (fun x => x.is_alpha) = some t' ∧
          strLower t'.lemma_ = strLower t.lemma_) ∧
      (∀ s, (nlp.tokenize s).find? (fun x => x.is_alpha) = none →
        (nlp.tokenize (strLower s)).find? (fun x => x.is_alpha) = none) ∧
      (∀ s, isCollocation (some nlp) s = true →
        original (some nlp) (collProcess nlp s) = collProcess nlp s)

/-- Defining equation of `original` for a present spaCy model. -/
theorem original_some (nlp : NlpModel) (word : Str) :
    original (some nlp) word =
      if word.contains '-' && ((pySplit word).length == 1) then strLower word
      else if (pySplit word).length == 1 then
        match (nlp.tokenize word).find? (fun t => t.is_alpha) with
        | some t => strLower t.lemma_
        | none => strLower word
      else if isCollocation (some nlp) word then collProcess nlp word
      else word := rfl

/-- C9: the lexical normalizer is idempotent — `original (original w) =
original w` for every input shape (single token, hyphenated compound,
collocation, full sentence, empty and non-alphabetic input), both in the
spaCy-less fallback configuration and, for every well-formed injected
pipeline, in the spaCy configuration. -/
theorem C9_normalize_idempotent (nlpM : Option NlpModel)
    (h : NlpWellFormed nlpM) (w : Str) :
    original nlpM (original nlpM w) = original nlpM w := by
  cases nlpM with
  | none =>
      show strStrip (strLower (strStrip (strLower w))) = strStrip (strLower w)
      rw [strLower_strStrip, strLower_idem, strStrip_idem]
  | some nlp =>
      obtain ⟨W1, W2, W3, W4⟩ := h
      by_cases hH : (w.contains '-' && ((pySplit w).length == 1)) = true
      · -- hyphenated single token: lower-cased, and lower-casing is stable
        have h1 : original (some nlp) w = strLower w := by
          rw [original_some, if_pos hH]
        rw [h1]
        rw [original_some, if_pos (by
          rw [contains_hyphen_strLower, pySplit_length_strLower]
          exact hH)]
        exact strLower_idem w
      · by_cases hS : ((pySplit w).length == 1) = true
        · -- single token without hyphen
          have hnoh : w.contains '-' = false := by
            cases hcc : w.contains '-'
            · rfl
            · exact absurd (by rw [hcc, hS]; rfl) hH
          cases hf : (nlp.tokenize w).find? (fun t => t.is_alpha) with
          | some t =>
              have halpha : t.is_alpha = true := List.find?_some hf
              have hmem : t ∈ nlp.tokenize w := List.mem_of_find?_eq_some hf
              have hsw : SimpleWord (strLower t.lemma_) := W1 w t hmem halpha
              have h1 : original (some nlp) w = strLower t.lemma_ := by
                rw [original_some, if_neg hH, if_pos hS, hf]
              rw [h1]
              obtain ⟨t', hft', hlem⟩ := W2 w t hmem halpha
              have hsplit : pySplit (strLower t.lemma_) = [strLower t.lemma_] :=
                pySplit_no_ws _ hsw.1 (fun c hc => alpha_not_ws c (hsw.2 c hc))
              have hcond1 : ¬(((strLower t.lemma_).contains '-' &&
                  ((pySplit (strLower t.lemma_)).length == 1)) = true) := by
                rw [simpleWord_no_hyphen hsw]
                simp
              have hcond2 : ((pySplit (strLower t.lemma_)).length == 1) = true := by
                rw [hsplit]
                rfl
              rw [original_some, if_neg hcond1, if_pos hcond2, hft']
              exact hlem
          | none =>
              have h1 : original (some nlp) w = strLower w := by
                rw [original_some, if_neg hH, if_pos hS, hf]
              rw [h1]
              have hf2 : (nlp.tokenize (strLower w)).find? (fun x => x.is_alpha) = none :=
                W3 w hf
              have hcond1 : ¬(((strLower w).contains '-' &&
                  ((pySplit (strLower w)).length == 1)) = true) := by
                rw [contains_hyphen_strLower, hnoh]
                simp
              have hcond2 : ((pySplit (strLower w)).length == 1) = true := by
                rw [pySplit_length_strLower]
                exact hS
              rw [original_some, if_neg hcond1, if_pos hcond2, hf2]
              exact strLower_idem w
        · -- multi-word input
          by_cases hcoll : isCollocation (some nlp) w = true
          · have h1 : original (some nlp) w = collProcess nlp w := by
              rw [original_some, if_neg hH, if_neg hS, if_pos hcoll]
            rw [h1]
            exact W4 w hcoll
          · have h1 : original (some nlp) w = w := by
              rw [original_some, if_neg hH, if_neg hS, if_neg hcoll]
            rw [h1]
            exact h1

/-- Witness for C9 at concrete inputs in the fallback configuration
(`NlpWellFormed none` holds trivially), evaluated on a mixed-case padded
token, a hyphenated compound, a sentence, and the empty string. -/
theorem C9_normalize_idempotent_witness :
    NlpWellFormed none ∧
    original none (original none "  Running  ".toList) = original none "  Running  ".toList ∧
    original none "  Running  ".toList = "running".toList ∧
    original none (original none "Dining-Room".toList) = original none "Dining-Room".toList ∧
    original none (original none "how are you".toList) = original none "how are you".toList ∧
    original none (original none "".toList) = original none "".toList :=
  ⟨trivial,
   C9_normalize_idempotent none trivial _,
   by decide,
   C9_normalize_idempotent none trivial _,
   C9_normalize_idempotent none trivial _,
   C9_normalize_idempotent none trivial _⟩
